import Mathlib

/-
Shallow embedding of the resilience / observability toolkit of the
cloud-optimisation repository, together with theorems settling the
claims of the specification against it.

Components embedded (from the TypeScript source):
  - src/backend/src/utils/circuitBreaker.ts : CircuitBreaker
  - cache service (CacheService)            : get / set / evict / clear / getStats
  - src/backend/src/utils/performance.ts    : PerformanceProfiler.getProfileStats,
                                              LoadTester.benchmark,
                                              MemoryLeakDetector.checkForLeaks / calculateTrend

Modelling conventions:
  - Time (Date.now(), performance.now()) is passed explicitly as a parameter; all
    reads of the clock inside a single synchronous method body are modelled as the
    same instant.
  - JavaScript numbers holding integral millisecond timestamps and counters are
    modelled as Nat; measured durations and derived statistics as Rat.
  - The asynchronous wrapped operation of the breaker is modelled by its outcome,
    an Except value; the Bool field invoked records whether the operation was
    actually run (the call counter the spec suggests for tests).
  - A JavaScript Map is modelled as an association list in insertion order, with
    a generic key type standing for the string keys of the source.
-/

namespace CloudOpt

/-! ## Circuit breaker (src/backend/src/utils/circuitBreaker.ts) -/

inductive CircuitState where
  | CLOSED
  | OPEN
  | HALF_OPEN
deriving DecidableEq, Repr

structure CircuitBreakerOptions where
  failureThreshold : Nat
  successThreshold : Nat
  timeout : Nat
  resetTimeout : Nat
deriving DecidableEq, Repr

/-- The mutable fields of class CircuitBreaker (the name is omitted: it only
feeds log messages). -/
structure Breaker where
  state : CircuitState := .CLOSED
  failureCount : Nat := 0
  successCount : Nat := 0
  nextAttempt : Nat := 0
  totalRequests : Nat := 0
  totalFailures : Nat := 0
  totalSuccesses : Nat := 0
deriving DecidableEq, Repr

namespace CircuitBreaker

/-- private close() of the source. -/
def closeBreaker (b : Breaker) : Breaker :=
  { b with state := .CLOSED, failureCount := 0, successCount := 0 }

/-- private open() of the source (open is a Lean keyword, hence the name).
The setTimeout scheduled there only clears failureCount after resetTimeout of
uninterrupted OPEN; it is an autonomous timer outside the synchronous state
machine and no claim depends on it, so it is not part of this step function. -/
def openBreaker (opts : CircuitBreakerOptions) (now : Nat) (b : Breaker) : Breaker :=
  { b with state := .OPEN, nextAttempt := now + opts.timeout }

/-- private onSuccess() of the source. -/
def onSuccess (opts : CircuitBreakerOptions) (b : Breaker) : Breaker :=
  let b := { b with totalSuccesses := b.totalSuccesses + 1 }
  if b.state = .HALF_OPEN then
    let b := { b with successCount := b.successCount + 1 }
    if opts.successThreshold ≤ b.successCount then closeBreaker b else b
  else if b.state = .CLOSED then
    { b with failureCount := 0 }
  else b

/-- private onFailure() of the source. -/
def onFailure (opts : CircuitBreakerOptions) (now : Nat) (b : Breaker) : Breaker :=
  let b := { b with totalFailures := b.totalFailures + 1, failureCount := b.failureCount + 1 }
  if b.state = .HALF_OPEN then openBreaker opts now b
  else if b.state = .CLOSED ∧ opts.failureThreshold ≤ b.failureCount then
    openBreaker opts now b
  else b

/-- Outcome of execute: the returned value, the re-raised operation error, or
the fail-fast rejection whose message carries the remaining wait
(nextAttempt - Date.now()) in milliseconds. -/
inductive ExecResult (E A : Type) where
  | ok (a : A)
  | opError (e : E)
  | breakerOpen (remainingMs : Nat)
deriving DecidableEq, Repr

structure ExecOutcome (E A : Type) where
  breaker : Breaker
  result : ExecResult E A
  invoked : Bool
deriving DecidableEq, Repr

/-- The try block of execute: await the operation, record the outcome, return
the value or re-raise the very error the operation raised. -/
def runOp {E A : Type} (opts : CircuitBreakerOptions) (now : Nat) (b : Breaker)
    (opRes : Except E A) : ExecOutcome E A :=
  match opRes with
  | .ok a => ⟨onSuccess opts b, .ok a, true⟩
  | .error e => ⟨onFailure opts now b, .opError e, true⟩

/-- async execute(operation) of the source.  opRes is the outcome the wrapped
operation would produce if invoked; invoked records whether it was run. -/
def execute {E A : Type} (opts : CircuitBreakerOptions) (now : Nat) (b : Breaker)
    (opRes : Except E A) : ExecOutcome E A :=
  let b := { b with totalRequests := b.totalRequests + 1 }
  if b.state = .OPEN then
    if now < b.nextAttempt then
      ⟨b, .breakerOpen (b.nextAttempt - now), false⟩
    else
      runOp opts now { b with state := .HALF_OPEN, successCount := 0 } opRes
  else
    runOp opts now b opRes

/-- One execute call whose wrapped operation fails. -/
def failStep (opts : CircuitBreakerOptions) (now : Nat) (b : Breaker) : Breaker :=
  (execute opts now b (Except.error () : Except Unit Unit)).breaker

/-- One execute call whose wrapped operation succeeds. -/
def succStep (opts : CircuitBreakerOptions) (now : Nat) (b : Breaker) : Breaker :=
  (execute opts now b (Except.ok () : Except Unit Unit)).breaker

/-- k consecutive failing execute calls. -/
def failIter (opts : CircuitBreakerOptions) (now : Nat) (b : Breaker) : Nat → Breaker
  | 0 => b
  | k + 1 => failStep opts now (failIter opts now b k)

/-- k consecutive succeeding execute calls. -/
def succIter (opts : CircuitBreakerOptions) (now : Nat) (b : Breaker) : Nat → Breaker
  | 0 => b
  | k + 1 => succStep opts now (succIter opts now b k)

lemma failStep_closed (opts : CircuitBreakerOptions) (now : Nat) (b : Breaker)
    (hs : b.state = .CLOSED) :
    failStep opts now b =
      if opts.failureThreshold ≤ b.failureCount + 1 then
        { b with state := .OPEN, nextAttempt := now + opts.timeout,
                 totalRequests := b.totalRequests + 1, totalFailures := b.totalFailures + 1,
                 failureCount := b.failureCount + 1 }
      else
        { b with totalRequests := b.totalRequests + 1, totalFailures := b.totalFailures + 1,
                 failureCount := b.failureCount + 1 } := by
  simp only [failStep, execute, runOp, onFailure, openBreaker, hs]
  simp

lemma succStep_closed (opts : CircuitBreakerOptions) (now : Nat) (b : Breaker)
    (hs : b.state = .CLOSED) :
    succStep opts now b =
      { b with totalRequests := b.totalRequests + 1, totalSuccesses := b.totalSuccesses + 1,
               failureCount := 0 } := by
  simp only [succStep, execute, runOp, onSuccess, hs]
  simp

lemma failStep_halfOpen (opts : CircuitBreakerOptions) (now : Nat) (b : Breaker)
    (hs : b.state = .HALF_OPEN) :
    failStep opts now b =
      { b with state := .OPEN, nextAttempt := now + opts.timeout,
               totalRequests := b.totalRequests + 1, totalFailures := b.totalFailures + 1,
               failureCount := b.failureCount + 1 } := by
  simp only [failStep, execute, runOp, onFailure, openBreaker, hs]
  simp

lemma succStep_halfOpen (opts : CircuitBreakerOptions) (now : Nat) (b : Breaker)
    (hs : b.state = .HALF_OPEN) :
    succStep opts now b =
      if opts.successThreshold ≤ b.successCount + 1 then
        { b with state := .CLOSED, failureCount := 0, successCount := 0,
                 totalRequests := b.totalRequests + 1, totalSuccesses := b.totalSuccesses + 1 }
      else
        { b with successCount := b.successCount + 1,
                 totalRequests := b.totalRequests + 1, totalSuccesses := b.totalSuccesses + 1 } := by
  simp only [succStep, execute, runOp, onSuccess, closeBreaker, hs]
  simp

lemma failIter_closed (opts : CircuitBreakerOptions) (now : Nat) (b : Breaker)
    (hs : b.state = .CLOSED) (h0 : b.failureCount = 0) :
    ∀ k, k < opts.failureThreshold →
      (failIter opts now b k).state = .CLOSED ∧ (failIter opts now b k).failureCount = k := by
  intro k
  induction k with
  | zero => intro _; exact ⟨hs, h0⟩
  | succ k ih =>
      intro hk
      obtain ⟨hks, hkc⟩ := ih (Nat.lt_of_succ_lt hk)
      rw [failIter, failStep_closed opts now _ hks, if_neg]
      · exact ⟨hks, by simp [hkc]⟩
      · rw [hkc]; omega

lemma succIter_halfOpen (opts : CircuitBreakerOptions) (now : Nat) (b : Breaker)
    (hs : b.state = .HALF_OPEN) (h0 : b.successCount = 0) :
    ∀ k, k < opts.successThreshold →
      (succIter opts now b k).state = .HALF_OPEN ∧ (succIter opts now b k).successCount = k := by
  intro k
  induction k with
  | zero => intro _; exact ⟨hs, h0⟩
  | succ k ih =>
      intro hk
      obtain ⟨hks, hkc⟩ := ih (Nat.lt_of_succ_lt hk)
      rw [succIter, succStep_halfOpen opts now _ hks, if_neg]
      · exact ⟨hks, by simp [hkc]⟩
      · rw [hkc]; omega

end CircuitBreaker

open CircuitBreaker

/-- C1: while the breaker is OPEN and the clock is strictly before nextAttempt,
execute rejects at once with the breaker-open error carrying the remaining wait
time nextAttempt - now, the wrapped operation is never invoked (the outcome is
the same whatever the operation would have produced, and invoked is false), and
the only state change is totalRequests increasing by 1. -/
theorem breaker_open_fails_fast {E A : Type} (opts : CircuitBreakerOptions) (now : Nat)
    (b : Breaker) (opRes : Except E A)
    (hs : b.state = .OPEN) (ht : now < b.nextAttempt) :
    execute opts now b opRes =
      ⟨{ b with totalRequests := b.totalRequests + 1 },
        .breakerOpen (b.nextAttempt - now), false⟩ := by
  simp only [execute, hs]
  simp [ht]

/-- Witness for C1 at a concrete OPEN breaker, clock 10, nextAttempt 100:
rejected with 90 ms remaining, not invoked, totalRequests bumped. -/
theorem breaker_open_fails_fast_witness :
    execute (E := Unit) (A := Nat) ⟨5, 3, 60000, 300000⟩ 10
        { state := .OPEN, nextAttempt := 100 } (Except.ok 7) =
      ⟨{ state := .OPEN, nextAttempt := 100, totalRequests := 1 },
        .breakerOpen 90, false⟩ :=
  breaker_open_fails_fast ⟨5, 3, 60000, 300000⟩ 10
    { state := .OPEN, nextAttempt := 100 } (Except.ok 7) rfl (by decide)

/-- C2: from CLOSED with failureCount 0 and failureThreshold N at least 1,
k consecutive failing calls for k < N leave the breaker CLOSED with
failureCount k, the Nth consecutive failure transitions it to OPEN, and any
successful call while CLOSED leaves the state CLOSED and resets failureCount
to 0. -/
theorem breaker_opens_on_nth_failure (opts : CircuitBreakerOptions) (now : Nat)
    (b : Breaker) (hs : b.state = .CLOSED) (h0 : b.failureCount = 0)
    (hN : 1 ≤ opts.failureThreshold) :
    (∀ k, k < opts.failureThreshold →
        (failIter opts now b k).state = .CLOSED ∧
        (failIter opts now b k).failureCount = k) ∧
    (failIter opts now b opts.failureThreshold).state = .OPEN ∧
    (∀ b2 : Breaker, b2.state = .CLOSED →
        (succStep opts now b2).state = .CLOSED ∧ (succStep opts now b2).failureCount = 0) := by
  refine ⟨failIter_closed opts now b hs h0, ?_, ?_⟩
  · obtain ⟨m, hm⟩ : ∃ m, opts.failureThreshold = m + 1 :=
      ⟨opts.failureThreshold - 1, by omega⟩
    obtain ⟨hks, hkc⟩ := failIter_closed opts now b hs h0 m (by omega)
    rw [hm, failIter, failStep_closed opts now _ hks, if_pos (by rw [hkc]; omega)]
  · intro b2 hb2
    rw [succStep_closed opts now b2 hb2]
    exact ⟨hb2, rfl⟩

/-- Witness for C2 with failureThreshold 3: two failures stay CLOSED with
counts 0,1,2; the third opens; a success in CLOSED resets the count. -/
theorem breaker_opens_on_nth_failure_witness :
    ((failIter ⟨3, 2, 1000, 5000⟩ 50 {} 2).state = CircuitState.CLOSED ∧
      (failIter ⟨3, 2, 1000, 5000⟩ 50 {} 2).failureCount = 2) ∧
    (failIter ⟨3, 2, 1000, 5000⟩ 50 {} 3).state = CircuitState.OPEN ∧
    ((succStep ⟨3, 2, 1000, 5000⟩ 50 { failureCount := 2 }).state = CircuitState.CLOSED ∧
      (succStep ⟨3, 2, 1000, 5000⟩ 50 { failureCount := 2 }).failureCount = 0) := by
  obtain ⟨h1, h2, h3⟩ :=
    breaker_opens_on_nth_failure ⟨3, 2, 1000, 5000⟩ 50 {} rfl rfl (by decide)
  exact ⟨h1 2 (by decide), h2, h3 { failureCount := 2 } rfl⟩

/-- C3: recovery cycle of the breaker.  (a) An execute call on an OPEN breaker
at or after nextAttempt transitions it to HALF_OPEN with successCount reset to
0 and lets the triggering call through as a probe (the call runs against that
HALF_OPEN state, and invoked is true).  (b) From HALF_OPEN with successCount 0,
k consecutive successes for k below successThreshold stay HALF_OPEN with
successCount k, and successThreshold consecutive successes transition to
CLOSED with failure and success counts reset.  (c) A single failure while
HALF_OPEN transitions back to OPEN with nextAttempt set to now plus the
configured timeout. -/
theorem breaker_recovery (opts : CircuitBreakerOptions) (now : Nat) (b : Breaker)
    (hS : 1 ≤ opts.successThreshold) :
    (∀ (E A : Type) (opRes : Except E A), b.state = .OPEN → b.nextAttempt ≤ now →
        execute opts now b opRes =
          runOp opts now
            { b with totalRequests := b.totalRequests + 1,
                     state := .HALF_OPEN, successCount := 0 } opRes ∧
        (execute opts now b opRes).invoked = true) ∧
    (b.state = .HALF_OPEN → b.successCount = 0 →
        (∀ k, k < opts.successThreshold →
            (succIter opts now b k).state = .HALF_OPEN ∧
            (succIter opts now b k).successCount = k) ∧
        (succIter opts now b opts.successThreshold).state = .CLOSED ∧
        (succIter opts now b opts.successThreshold).failureCount = 0 ∧
        (succIter opts now b opts.successThreshold).successCount = 0) ∧
    (b.state = .HALF_OPEN →
        (failStep opts now b).state = .OPEN ∧
        (failStep opts now b).nextAttempt = now + opts.timeout) := by
  refine ⟨?_, ?_, ?_⟩
  · intro E A opRes hs ht
    have hnlt : ¬ now < b.nextAttempt := Nat.not_lt.mpr ht
    have heq : execute opts now b opRes =
        runOp opts now
          { b with totalRequests := b.totalRequests + 1,
                   state := .HALF_OPEN, successCount := 0 } opRes := by
      simp only [execute, hs]
      simp [hnlt]
    refine ⟨heq, ?_⟩
    rw [heq]
    cases opRes <;> rfl
  · intro hs h0
    refine ⟨succIter_halfOpen opts now b hs h0, ?_⟩
    obtain ⟨m, hm⟩ : ∃ m, opts.successThreshold = m + 1 :=
      ⟨opts.successThreshold - 1, by omega⟩
    obtain ⟨hks, hkc⟩ := succIter_halfOpen opts now b hs h0 m (by omega)
    rw [hm, succIter, succStep_halfOpen opts now _ hks, if_pos (by rw [hkc]; omega)]
    exact ⟨rfl, rfl, rfl⟩
  · intro hs
    rw [failStep_halfOpen opts now b hs]
    exact ⟨rfl, rfl⟩

/-- Witness for C3 with successThreshold 2: the probe call on an expired OPEN
breaker is invoked; two successes from HALF_OPEN close the breaker; one
failure from HALF_OPEN reopens it with nextAttempt 50 + 1000. -/
theorem breaker_recovery_witness :
    (execute (E := Unit) (A := Nat) ⟨2, 2, 1000, 5000⟩ 50
        { state := .OPEN, nextAttempt := 40 } (Except.ok 7)).invoked = true ∧
    (succIter ⟨2, 2, 1000, 5000⟩ 50 { state := .HALF_OPEN } 2).state = CircuitState.CLOSED ∧
    (failStep ⟨2, 2, 1000, 5000⟩ 50 { state := .HALF_OPEN }).state = CircuitState.OPEN ∧
    (failStep ⟨2, 2, 1000, 5000⟩ 50 { state := .HALF_OPEN }).nextAttempt = 1050 := by
  obtain ⟨ha, -, -⟩ :=
    breaker_recovery ⟨2, 2, 1000, 5000⟩ 50 { state := .OPEN, nextAttempt := 40 } (by decide)
  obtain ⟨-, hb, hc⟩ :=
    breaker_recovery ⟨2, 2, 1000, 5000⟩ 50 { state := .HALF_OPEN } (by decide)
  exact ⟨(ha Unit Nat (Except.ok 7) rfl (by decide)).2, (hb rfl rfl).2.1,
    (hc rfl).1, (hc rfl).2⟩

/-- C7: whenever the wrapped operation is actually attempted and raises, the
breaker records the failure (totalFailures and failureCount up by one, state
moved per the transition table: stays CLOSED only when it was CLOSED and the
new count is still below failureThreshold, otherwise OPEN) and re-raises the
original error unchanged. -/
theorem breaker_records_failure_and_rethrows {E A : Type} (opts : CircuitBreakerOptions)
    (now : Nat) (b : Breaker) (e : E)
    (h : ¬ (b.state = .OPEN ∧ now < b.nextAttempt)) :
    (execute opts now b (Except.error e : Except E A)).result = .opError e ∧
    (execute opts now b (Except.error e : Except E A)).invoked = true ∧
    (execute opts now b (Except.error e : Except E A)).breaker.totalFailures
      = b.totalFailures + 1 ∧
    (execute opts now b (Except.error e : Except E A)).breaker.failureCount
      = b.failureCount + 1 ∧
    (execute opts now b (Except.error e : Except E A)).breaker.state =
      (if b.state = .CLOSED ∧ b.failureCount + 1 < opts.failureThreshold
        then .CLOSED else .OPEN) := by
  cases hb : b.state with
  | CLOSED =>
      by_cases hc : opts.failureThreshold ≤ b.failureCount + 1
      · rw [if_neg (fun hcond => absurd hcond.2 (by omega))]
        simp only [execute, runOp, onFailure, openBreaker, hb]
        simp [hc]
      · rw [if_pos ⟨rfl, by omega⟩]
        simp only [execute, runOp, onFailure, openBreaker, hb]
        simp [hc]
  | OPEN =>
      have hnlt : ¬ now < b.nextAttempt := fun hlt => h ⟨hb, hlt⟩
      simp only [execute, runOp, onFailure, openBreaker, hb]
      simp [hnlt]
  | HALF_OPEN =>
      simp only [execute, runOp, onFailure, openBreaker, hb]
      simp

/-- Witness for C7: a CLOSED breaker with failureThreshold 2 and one prior
failure: the error is re-raised and the breaker opens. -/
theorem breaker_records_failure_and_rethrows_witness :
    (execute (E := Nat) (A := Unit) ⟨2, 3, 1000, 5000⟩ 9
        { failureCount := 1 } (Except.error 42)).result = ExecResult.opError 42 ∧
    (execute (E := Nat) (A := Unit) ⟨2, 3, 1000, 5000⟩ 9
        { failureCount := 1 } (Except.error 42)).breaker.state = CircuitState.OPEN := by
  obtain ⟨h1, -, -, -, h5⟩ :=
    breaker_records_failure_and_rethrows (A := Unit) ⟨2, 3, 1000, 5000⟩ 9
      { failureCount := 1 } 42 (by decide)
  exact ⟨h1, by rw [h5]; decide⟩

/-! ## Cache service (CacheService of the source)

A JavaScript Map is modelled as an association list kept in insertion order:
get finds the first (and, for states built by the Map interface, only) binding,
set overwrites in place or appends, delete removes the binding.  The string
keys of the source are modelled by a generic key type with decidable
equality. -/

def mapGet {K β : Type} [DecidableEq K] (k : K) : List (K × β) → Option β
  | [] => none
  | kv :: rest => if kv.1 = k then some kv.2 else mapGet k rest

def mapSet {K β : Type} [DecidableEq K] (k : K) (v : β) : List (K × β) → List (K × β)
  | [] => [(k, v)]
  | kv :: rest => if kv.1 = k then (k, v) :: rest else kv :: mapSet k v rest

def mapDelete {K β : Type} [DecidableEq K] (k : K) : List (K × β) → List (K × β)
  | [] => []
  | kv :: rest => if kv.1 = k then rest else kv :: mapDelete k rest

lemma mapGet_mapSet_self {K β : Type} [DecidableEq K] (k : K) (v : β) (l : List (K × β)) :
    mapGet k (mapSet k v l) = some v := by
  induction l with
  | nil => simp [mapGet, mapSet]
  | cons kv rest ih =>
      by_cases h : kv.1 = k <;> simp [mapGet, mapSet, h, ih]

lemma mapGet_eq_none_of_not_mem {K β : Type} [DecidableEq K] (k : K) (l : List (K × β))
    (h : k ∉ l.map Prod.fst) : mapGet k l = none := by
  induction l with
  | nil => rfl
  | cons kv rest ih =>
      simp only [List.map_cons, List.mem_cons] at h
      push_neg at h
      have hne : ¬ kv.1 = k := fun he => h.1 he.symm
      simp [mapGet, hne, ih h.2]

lemma mapGet_mapDelete_self {K β : Type} [DecidableEq K] (k : K) (l : List (K × β))
    (hnd : (l.map Prod.fst).Nodup) : mapGet k (mapDelete k l) = none := by
  induction l with
  | nil => rfl
  | cons kv rest ih =>
      simp only [List.map_cons, List.nodup_cons] at hnd
      by_cases h : kv.1 = k
      · simpa [mapDelete, h] using mapGet_eq_none_of_not_mem k rest (h ▸ hnd.1)
      · simp [mapDelete, mapGet, h, ih hnd.2]

lemma keys_mapDelete_sublist {K β : Type} [DecidableEq K] (k : K) (l : List (K × β)) :
    ((mapDelete k l).map Prod.fst).Sublist (l.map Prod.fst) := by
  induction l with
  | nil => simp [mapDelete]
  | cons kv rest ih =>
      by_cases h : kv.1 = k
      · simp only [mapDelete, if_pos h, List.map_cons]
        exact (List.sublist_cons_self _ _)
      · simp only [mapDelete, if_neg h, List.map_cons]
        exact ih.cons₂ kv.1

lemma mem_keys_mapSet {K β : Type} [DecidableEq K] (k x : K) (v : β) (l : List (K × β)) :
    x ∈ (mapSet k v l).map Prod.fst ↔ x ∈ l.map Prod.fst ∨ x = k := by
  induction l with
  | nil => simp [mapSet]
  | cons kv rest ih =>
      by_cases h : kv.1 = k
      · subst h
        simp [mapSet]
        tauto
      · simp [mapSet, h, ih]
        tauto

lemma nodup_keys_mapSet {K β : Type} [DecidableEq K] (k : K) (v : β) (l : List (K × β))
    (hnd : (l.map Prod.fst).Nodup) : ((mapSet k v l).map Prod.fst).Nodup := by
  induction l with
  | nil => simp [mapSet]
  | cons kv rest ih =>
      simp only [List.map_cons, List.nodup_cons] at hnd
      by_cases h : kv.1 = k
      · simp only [mapSet, if_pos h, List.map_cons, List.nodup_cons]
        exact ⟨h ▸ hnd.1, hnd.2⟩
      · simp only [mapSet, if_neg h, List.map_cons, List.nodup_cons]
        refine ⟨?_, ih hnd.2⟩
        rw [mem_keys_mapSet]
        rintro (hmem | heq)
        · exact hnd.1 hmem
        · exact h heq

structure CacheOptions where
  ttl : Nat
  maxSize : Nat
  cleanupInterval : Nat
deriving DecidableEq, Repr

structure CacheEntry (T : Type) where
  value : T
  expiry : Nat
  lastAccessed : Nat
  accessCount : Nat
deriving DecidableEq, Repr

structure CacheStats where
  size : Nat
  hits : Nat
  misses : Nat
  hitRate : Rat
  avgAccessTime : Rat
  evictions : Nat
deriving DecidableEq, Repr

/-- The mutable fields of class CacheService.  The cleanup timer handle is
omitted: the background sweep is an autonomous timer outside the synchronous
operations the claims are about. -/
structure CacheState (K T : Type) where
  cache : List (K × CacheEntry T) := []
  hits : Nat := 0
  misses : Nat := 0
  evictions : Nat := 0
  totalAccessTime : Nat := 0
  totalAccesses : Nat := 0
deriving DecidableEq, Repr

/-- JavaScript expression a / b followed by logical-or 0, as used by getStats:
here the division hits zero denominators only with zero numerators, producing
NaN, which the logical-or (like a genuine 0 quotient) maps to 0. -/
def jsDivOr0 (a b : Rat) : Rat := if b = 0 then 0 else a / b

namespace CacheService

/-- The ttl argument of set is optional and falsy values fall back to the
configured default: ttl or this.options.ttl in the source. -/
def resolveTtl (opts : CacheOptions) : Option Nat → Nat
  | none => opts.ttl
  | some t => if t = 0 then opts.ttl else t

/-- async get(key) of the source.  Both Date.now() reads of the method body
are the same instant now, so the recorded access time is now - now.  The
function is total: absence is the none result, never an error. -/
def get {K T : Type} [DecidableEq K] (now : Nat) (key : K) (st : CacheState K T) :
    Option T × CacheState K T :=
  match mapGet key st.cache with
  | none => (none, { st with misses := st.misses + 1 })
  | some entry =>
      if entry.expiry < now then
        (none, { st with cache := mapDelete key st.cache, misses := st.misses + 1 })
      else
        (some entry.value,
          { st with
              cache := mapSet key
                { entry with lastAccessed := now, accessCount := entry.accessCount + 1 }
                st.cache,
              hits := st.hits + 1,
              totalAccessTime := st.totalAccessTime + (now - now),
              totalAccesses := st.totalAccesses + 1 })

/-- private evict() of the source: one pass over the map looking for the entry
with the smallest lastAccessed strictly below the running minimum, which
starts at Date.now(). -/
def scanOldest {K T : Type} (acc : Nat × Option K) :
    List (K × CacheEntry T) → Nat × Option K
  | [] => acc
  | kv :: rest =>
      scanOldest (if kv.2.lastAccessed < acc.1 then (kv.2.lastAccessed, some kv.1) else acc) rest

def evict {K T : Type} [DecidableEq K] (now : Nat) (st : CacheState K T) : CacheState K T :=
  match (scanOldest (now, none) st.cache).2 with
  | some k => { st with cache := mapDelete k st.cache, evictions := st.evictions + 1 }
  | none => st

/-- async set(key, value, ttl?) of the source: evict first when already at
capacity, then overwrite unconditionally. -/
def set {K T : Type} [DecidableEq K] (opts : CacheOptions) (now : Nat) (key : K) (value : T)
    (ttl : Option Nat) (st : CacheState K T) : CacheState K T :=
  let st2 := if opts.maxSize ≤ st.cache.length then evict now st else st
  { st2 with
      cache := mapSet key
        { value := value, expiry := now + resolveTtl opts ttl, lastAccessed := now,
          accessCount := 0 }
        st2.cache }

/-- private resetStats() of the source. -/
def resetStats {K T : Type} (st : CacheState K T) : CacheState K T :=
  { st with hits := 0, misses := 0, evictions := 0, totalAccessTime := 0, totalAccesses := 0 }

/-- async clear() of the source: empty the map, then reset the counters. -/
def clear {K T : Type} (st : CacheState K T) : CacheState K T :=
  resetStats { st with cache := [] }

/-- getStats() of the source. -/
def getStats {K T : Type} (st : CacheState K T) : CacheStats :=
  { size := st.cache.length
    hits := st.hits
    misses := st.misses
    hitRate := jsDivOr0 st.hits (st.hits + st.misses)
    avgAccessTime := jsDivOr0 st.totalAccessTime st.totalAccesses
    evictions := st.evictions }

lemma nodup_keys_evict {K T : Type} [DecidableEq K] (now : Nat) (st : CacheState K T)
    (hnd : (st.cache.map Prod.fst).Nodup) :
    ((evict now st).cache.map Prod.fst).Nodup := by
  cases hscan : (scanOldest (now, none) st.cache).2 with
  | none => simpa [evict, hscan] using hnd
  | some k =>
      simp only [evict, hscan]
      exact hnd.sublist (keys_mapDelete_sublist k st.cache)

lemma nodup_keys_set {K T : Type} [DecidableEq K] (opts : CacheOptions) (now : Nat)
    (key : K) (v : T) (ttl : Option Nat) (st : CacheState K T)
    (hnd : (st.cache.map Prod.fst).Nodup) :
    ((set opts now key v ttl st).cache.map Prod.fst).Nodup := by
  by_cases hcap : opts.maxSize ≤ st.cache.length
  · simp only [set, if_pos hcap]
    exact nodup_keys_mapSet _ _ _ (nodup_keys_evict now st hnd)
  · simp only [set, if_neg hcap]
    exact nodup_keys_mapSet _ _ _ hnd

lemma mapGet_set_self {K T : Type} [DecidableEq K] (opts : CacheOptions) (now : Nat)
    (key : K) (v : T) (ttl : Option Nat) (st : CacheState K T) :
    mapGet key (set opts now key v ttl st).cache =
      some { value := v, expiry := now + resolveTtl opts ttl, lastAccessed := now,
             accessCount := 0 } := by
  by_cases hcap : opts.maxSize ≤ st.cache.length <;>
    simp only [set, if_pos, if_neg, hcap] <;>
    exact mapGet_mapSet_self _ _ _

/-- The scan of evict computes the running minimum of lastAccessed, seeded
with the accumulator: the result is at most the seed and at most every
lastAccessed in the list, and it either is the untouched seed or comes with
the key of a list entry realising it. -/
lemma scanOldest_spec {K T : Type} (l : List (K × CacheEntry T)) :
    ∀ (a : Nat) (r : Option K),
      (scanOldest (a, r) l).1 ≤ a ∧
      (∀ p ∈ l, (scanOldest (a, r) l).1 ≤ p.2.lastAccessed) ∧
      (((scanOldest (a, r) l).1 = a ∧ (scanOldest (a, r) l).2 = r) ∨
        ∃ p ∈ l, p.2.lastAccessed = (scanOldest (a, r) l).1 ∧
          (scanOldest (a, r) l).2 = some p.1) := by
  induction l with
  | nil =>
      intro a r
      exact ⟨le_refl a, by simp, Or.inl ⟨rfl, rfl⟩⟩
  | cons kv rest ih =>
      intro a r
      by_cases hlt : kv.2.lastAccessed < a
      · obtain ⟨h1, h2, h3⟩ := ih kv.2.lastAccessed (some kv.1)
        have hstep : scanOldest (a, r) (kv :: rest) =
            scanOldest (kv.2.lastAccessed, some kv.1) rest := by
          simp [scanOldest, hlt]
        rw [hstep]
        refine ⟨le_trans h1 (le_of_lt hlt), ?_, ?_⟩
        · intro p hp
          rcases List.mem_cons.mp hp with hpk | hpr
          · rw [hpk]; exact h1
          · exact h2 p hpr
        · rcases h3 with ⟨heq, hr⟩ | ⟨p, hp, hla, hr⟩
          · exact Or.inr ⟨kv, List.mem_cons_self kv rest, heq.symm, hr⟩
          · exact Or.inr ⟨p, List.mem_cons_of_mem kv hp, hla, hr⟩
      · obtain ⟨h1, h2, h3⟩ := ih a r
        have hstep : scanOldest (a, r) (kv :: rest) = scanOldest (a, r) rest := by
          simp [scanOldest, hlt]
        rw [hstep]
        refine ⟨h1, ?_, ?_⟩
        · intro p hp
          rcases List.mem_cons.mp hp with hpk | hpr
          · rw [hpk]; exact le_trans h1 (Nat.le_of_not_lt hlt)
          · exact h2 p hpr
        · rcases h3 with ⟨heq, hr⟩ | ⟨p, hp, hla, hr⟩
          · exact Or.inl ⟨heq, hr⟩
          · exact Or.inr ⟨p, List.mem_cons_of_mem kv hp, hla, hr⟩

/-- When some entry was last accessed strictly before now, evict removes a
minimal-lastAccessed entry and counts one eviction. -/
lemma evict_removes_oldest {K T : Type} [DecidableEq K] (now : Nat) (st : CacheState K T)
    (hold : ∃ p ∈ st.cache, p.2.lastAccessed < now) :
    ∃ k0 e0, (k0, e0) ∈ st.cache ∧
      (∀ q ∈ st.cache, e0.lastAccessed ≤ q.2.lastAccessed) ∧
      evict now st =
        { st with cache := mapDelete k0 st.cache, evictions := st.evictions + 1 } := by
  obtain ⟨h1, h2, h3⟩ := scanOldest_spec st.cache now (none : Option K)
  obtain ⟨p, hp, hplt⟩ := hold
  have hmlt : (scanOldest (now, none) st.cache).1 < now :=
    lt_of_le_of_lt (h2 p hp) hplt
  rcases h3 with ⟨heq, -⟩ | ⟨q, hq, hla, hr⟩
  · omega
  · refine ⟨q.1, q.2, by simpa using hq, ?_, ?_⟩
    · intro q2 hq2
      rw [hla]
      exact h2 q2 hq2
    · simp only [evict, hr]

end CacheService

open CacheService

/-- C4: time-to-live behaviour of the cache, for any positive ttl.  After
set(k, v, ttl) at time tSet, a get(k) at a time tGet not past the expiry
tSet + ttl returns v, counts a hit and rewrites the entry with
lastAccessed = tGet and accessCount 1; a get(k) strictly past the expiry
returns none, removes the binding and counts a miss; a get of an absent key
is a pure miss.  get is a total function into an Option result: absence is a
sentinel, never an error. -/
theorem cache_ttl_get_set {K T : Type} [DecidableEq K] (opts : CacheOptions)
    (tSet tGet : Nat) (key : K) (v : T) (ttl : Nat) (st : CacheState K T)
    (httl : 0 < ttl) (hnd : (st.cache.map Prod.fst).Nodup)
    (st1 : CacheState K T) (hst1 : st1 = CacheService.set opts tSet key v (some ttl) st) :
    (tGet ≤ tSet + ttl →
        (CacheService.get tGet key st1).1 = some v ∧
        (CacheService.get tGet key st1).2.hits = st1.hits + 1 ∧
        mapGet key (CacheService.get tGet key st1).2.cache =
          some { value := v, expiry := tSet + ttl, lastAccessed := tGet, accessCount := 1 }) ∧
    (tSet + ttl < tGet →
        (CacheService.get tGet key st1).1 = none ∧
        (CacheService.get tGet key st1).2.misses = st1.misses + 1 ∧
        mapGet key (CacheService.get tGet key st1).2.cache = none) ∧
    (∀ (st2 : CacheState K T) (k2 : K), mapGet k2 st2.cache = none →
        CacheService.get tGet k2 st2 = (none, { st2 with misses := st2.misses + 1 })) := by
  have hne : ¬ ttl = 0 := by omega
  have hres : resolveTtl opts (some ttl) = ttl := by simp [resolveTtl, hne]
  have hkey : mapGet key st1.cache =
      some { value := v, expiry := tSet + ttl, lastAccessed := tSet, accessCount := 0 } := by
    rw [hst1, mapGet_set_self, hres]
  have hnd1 : (st1.cache.map Prod.fst).Nodup := by
    rw [hst1]; exact nodup_keys_set opts tSet key v (some ttl) st hnd
  refine ⟨?_, ?_, ?_⟩
  · intro hle
    have hcond : ¬ (tSet + ttl < tGet) := by omega
    simp [CacheService.get, hkey, hcond, mapGet_mapSet_self]
  · intro hgt
    simp [CacheService.get, hkey, hgt, mapGet_mapDelete_self key st1.cache hnd1]
  · intro st2 k2 hmiss
    simp only [CacheService.get, hmiss]

/-- Witness for C4 with ttl 10, set at time 100, hit at 105, expiry miss at
111, and a get of an absent key, all on a concrete one-entry cache. -/
theorem cache_ttl_get_set_witness :
    ((CacheService.get (K := Nat) (T := Nat) 105 3
        (CacheService.set ⟨50, 10, 60⟩ 100 3 77 (some 10) {})).1 = some 77 ∧
      (CacheService.get (K := Nat) (T := Nat) 111 3
        (CacheService.set ⟨50, 10, 60⟩ 100 3 77 (some 10) {})).1 = none) ∧
    CacheService.get (K := Nat) (T := Nat) 105 9 {} =
      (none, { misses := 1 }) := by
  obtain ⟨hhit, hmiss, habsent⟩ :=
    cache_ttl_get_set (K := Nat) (T := Nat) ⟨50, 10, 60⟩ 100 105 3 77 10 {}
      (by decide) (by decide) (CacheService.set ⟨50, 10, 60⟩ 100 3 77 (some 10) {}) rfl
  obtain ⟨hhit2, hmiss2, -⟩ :=
    cache_ttl_get_set (K := Nat) (T := Nat) ⟨50, 10, 60⟩ 100 111 3 77 10 {}
      (by decide) (by decide) (CacheService.set ⟨50, 10, 60⟩ 100 3 77 (some 10) {}) rfl
  exact ⟨⟨(hhit (by decide)).1, (hmiss2 (by decide)).1⟩, habsent {} 9 rfl⟩

/-- C5 counterexample: a full cache (maxSize 1) whose single entry was last
accessed exactly at the current instant.  The claim says the set call must
evict the oldest entry before inserting; the code starts its scan at
Date.now() with a strict comparison, finds no candidate, evicts nothing, and
the cache grows to 2 entries with the old entry still present and the
eviction counter untouched. -/
theorem cache_eviction_counterexample :
    (CacheService.set (K := Nat) (T := Nat) ⟨100, 1, 60⟩ 5 1 9 none
        { cache := [(0, ⟨7, 100, 5, 0⟩)] }).cache.length = 2 ∧
    mapGet 0 (CacheService.set (K := Nat) (T := Nat) ⟨100, 1, 60⟩ 5 1 9 none
        { cache := [(0, ⟨7, 100, 5, 0⟩)] }).cache = some ⟨7, 100, 5, 0⟩ ∧
    (CacheService.set (K := Nat) (T := Nat) ⟨100, 1, 60⟩ 5 1 9 none
        { cache := [(0, ⟨7, 100, 5, 0⟩)] }).evictions = 0 := by
  decide

/-- C5 as amended: when the cache is at capacity before a set AND at least one
entry was last accessed strictly before the current time, the set evicts
exactly one entry whose lastAccessed is minimal (never an entry with a more
recent lastAccessed), counts the eviction, and then inserts the new entry; if
every entry was last accessed at the current instant, nothing is evicted (the
counterexample above). -/
theorem cache_eviction_lru_amended {K T : Type} [DecidableEq K] (opts : CacheOptions)
    (now : Nat) (key : K) (v : T) (ttl : Option Nat) (st : CacheState K T)
    (hcap : opts.maxSize ≤ st.cache.length)
    (hold : ∃ p ∈ st.cache, p.2.lastAccessed < now) :
    ∃ k0 e0, (k0, e0) ∈ st.cache ∧
      (∀ q ∈ st.cache, e0.lastAccessed ≤ q.2.lastAccessed) ∧
      CacheService.set opts now key v ttl st =
        { st with
            cache := mapSet key
              { value := v, expiry := now + resolveTtl opts ttl, lastAccessed := now,
                accessCount := 0 } (mapDelete k0 st.cache),
            evictions := st.evictions + 1 } := by
  obtain ⟨k0, e0, hmem, hmin, hev⟩ := evict_removes_oldest now st hold
  refine ⟨k0, e0, hmem, hmin, ?_⟩
  simp only [CacheService.set, if_pos hcap, hev]

/-- Concrete two-entry cache state used by the witness of the amended C5. -/
def stW : CacheState Nat Nat :=
  { cache := [(0, ⟨5, 100, 3, 0⟩), (1, ⟨6, 100, 7, 0⟩)] }

/-- Witness for C5 as amended: capacity 2, two entries last accessed at 3 and
7, clock 10: the entry with lastAccessed 3 is minimal and evicted. -/
theorem cache_eviction_lru_amended_witness :
    ∃ k0 e0, (k0, e0) ∈ stW.cache ∧
      (∀ q ∈ stW.cache, e0.lastAccessed ≤ q.2.lastAccessed) ∧
      CacheService.set ⟨50, 2, 60⟩ 10 2 8 none stW =
        { stW with
            cache := mapSet 2
              { value := 8, expiry := 10 + resolveTtl ⟨50, 2, 60⟩ none, lastAccessed := 10,
                accessCount := 0 } (mapDelete k0 stW.cache),
            evictions := stW.evictions + 1 } :=
  cache_eviction_lru_amended ⟨50, 2, 60⟩ 10 2 8 none stW (by decide)
    ⟨(0, ⟨5, 100, 3, 0⟩), by simp [stW], by norm_num⟩

/-- C10: clear() also resets the statistics counters, not only the stored
entries: a getStats() right after clear() reports size, hits, misses,
hitRate, avgAccessTime and evictions all 0, for every prior state. -/
theorem cache_clear_resets_stats {K T : Type} (st : CacheState K T) :
    CacheService.getStats (CacheService.clear st) =
      { size := 0, hits := 0, misses := 0, hitRate := 0, avgAccessTime := 0,
        evictions := 0 } := by
  simp [CacheService.clear, CacheService.resetStats, CacheService.getStats, jsDivOr0]

/-! ## Telemetry (src/backend/src/utils/performance.ts) -/

/-- Ascending numeric sort: the effect of sort with comparator a - b on an
array of numbers. -/
def sortAsc (l : List Rat) : List Rat := List.insertionSort (· ≤ ·) l

structure PerfMetrics where
  duration : Rat
  heapUsedDelta : Rat
deriving DecidableEq, Repr

structure ProfileStats where
  count : Nat
  avgDuration : Rat
  minDuration : Rat
  maxDuration : Rat
  p95Duration : Rat
  avgMemoryUsed : Rat
deriving DecidableEq, Repr

/-- static getProfileStats(label) of PerformanceProfiler, as a function of the
ring buffer stored for the label: none models both an absent label and an
empty buffer.  The source indexes durations[0], durations[length - 1] and
durations[Math.floor(length * 0.95)] directly; all three indices are in range
on a nonempty buffer, so the getD default 0 is never consulted.  The p95
index Math.floor(length * 0.95), computed there with the float 0.95, equals
the exact floor of 95 n / 100 for every n up to the 100-sample buffer cap. -/
def PerformanceProfiler.getProfileStats (profiles : Option (List PerfMetrics)) :
    Option ProfileStats :=
  match profiles with
  | none => none
  | some ps =>
      if ps.length = 0 then none
      else
        let durations := sortAsc (ps.map PerfMetrics.duration)
        let memoryUsages := ps.map PerfMetrics.heapUsedDelta
        some
          { count := ps.length
            avgDuration := durations.sum / durations.length
            minDuration := durations.getD 0 0
            maxDuration := durations.getD (durations.length - 1) 0
            p95Duration := durations.getD (durations.length * 95 / 100) 0
            avgMemoryUsed := memoryUsages.sum / memoryUsages.length }

/-- The ten-sample buffer with durations 10, 20, ..., 100 named by the spec. -/
def tenSamples : List PerfMetrics :=
  [⟨10, 0⟩, ⟨20, 0⟩, ⟨30, 0⟩, ⟨40, 0⟩, ⟨50, 0⟩,
   ⟨60, 0⟩, ⟨70, 0⟩, ⟨80, 0⟩, ⟨90, 0⟩, ⟨100, 0⟩]

/-- JavaScript division as used by the benchmark aggregates: a zero
denominator yields a non-finite number (NaN when the numerator is also zero),
modelled as none. -/
def jsDiv (a b : Rat) : Option Rat := if b = 0 then none else some (a / b)

structure BenchmarkResult where
  totalTime : Rat
  avgTime : Option Rat
  minTime : Rat
  maxTime : Rat
  rps : Option Rat
  errors : Nat
deriving DecidableEq, Repr

/-- static benchmark of LoadTester, as a function of the timed outcomes.
outcomes lists, in completion order, one element per timed call of the
iteration budget: some d for a call that returned after wall-clock duration
d, none for a call that raised (pushing 1 onto the errors array).  Warmup
calls are untimed and discarded by the source, so they do not appear.
totalTime is the measured wall-clock time of the whole run.  In the source
maxTime reads sortedResults[length - 1] with || 0: on an empty results array
the index is -1 and the read undefined, which || turns into 0, matching the
truncated Nat subtraction with getD here. -/
def LoadTester.benchmark (outcomes : List (Option Rat)) (totalTime : Rat) :
    BenchmarkResult :=
  let results := outcomes.filterMap id
  let sortedResults := sortAsc results
  { totalTime := totalTime
    avgTime := jsDiv results.sum results.length
    minTime := sortedResults.getD 0 0
    maxTime := sortedResults.getD (sortedResults.length - 1) 0
    rps := (jsDiv results.length totalTime).map fun q => q * 1000
    errors := (outcomes.filter fun o => o.isNone).length }

/-- private static calculateTrend(values) of MemoryLeakDetector: the
ordinary-least-squares slope of values against indices 0..n-1, scaled by
n - 1. -/
def MemoryLeakDetector.calculateTrend (values : List Rat) : Rat :=
  let n : Rat := values.length
  let sumX : Rat := n * (n - 1) / 2
  let sumY : Rat := values.sum
  let sumXY : Rat := (values.enum.map fun p => (p.1 : Rat) * p.2).sum
  let sumXX : Rat := (values.enum.map fun p => (p.1 : Rat) * (p.1 : Rat)).sum
  let slope := (n * sumXY - sumX * sumY) / (n * sumXX - sumX * sumX)
  slope * (n - 1)

/-- private static checkForLeaks() of MemoryLeakDetector, as a function of
the heap-used values of the snapshot buffer; the Bool is whether the leak
warning is emitted. -/
def MemoryLeakDetector.checkForLeaks (snapshots : List Rat) : Bool :=
  if snapshots.length < 5 then false
  else
    decide (50 * 1024 * 1024 <
      MemoryLeakDetector.calculateTrend (snapshots.drop (snapshots.length - 5)))

lemma calculateTrend_five (y0 y1 y2 y3 y4 : Rat) :
    MemoryLeakDetector.calculateTrend [y0, y1, y2, y3, y4] =
      (2 * y4 + y3 - y1 - 2 * y0) * 2 / 5 := by
  simp [MemoryLeakDetector.calculateTrend, List.enum, List.enumFrom]
  ring_nf

lemma sortAsc_length (l : List Rat) : (sortAsc l).length = l.length :=
  (List.perm_insertionSort _ l).length_eq

/-- C8: for a nonempty sample buffer getProfileStats reports as p95 the
element at index floor(0.95 n) = 95 n / 100 (integer division) of the
ascending-sorted duration list, an index always in range (no interpolation);
it reports the sample count; the sorted list really is an ascending
permutation of the durations; absent labels and empty buffers give an absent
result; on the ten durations 10, 20, ..., 100 the p95 is 100. -/
theorem profiler_p95_index :
    (∀ ps : List PerfMetrics, ps ≠ [] →
        (PerformanceProfiler.getProfileStats (some ps)).map ProfileStats.p95Duration =
          some ((sortAsc (ps.map PerfMetrics.duration)).getD (ps.length * 95 / 100) 0) ∧
        (PerformanceProfiler.getProfileStats (some ps)).map ProfileStats.count =
          some ps.length ∧
        ps.length * 95 / 100 < ps.length ∧
        List.Sorted (· ≤ ·) (sortAsc (ps.map PerfMetrics.duration)) ∧
        (sortAsc (ps.map PerfMetrics.duration)).Perm (ps.map PerfMetrics.duration)) ∧
    PerformanceProfiler.getProfileStats none = none ∧
    PerformanceProfiler.getProfileStats (some []) = none ∧
    (PerformanceProfiler.getProfileStats (some tenSamples)).map ProfileStats.p95Duration
      = some 100 := by
  refine ⟨?_, rfl, by simp [PerformanceProfiler.getProfileStats], by decide⟩
  intro ps hne
  have hlen : ¬ ps.length = 0 := fun h0 => hne (List.length_eq_zero.mp h0)
  refine ⟨by simp [PerformanceProfiler.getProfileStats, hlen, sortAsc_length],
    by simp [PerformanceProfiler.getProfileStats, hlen], ?_, ?_, ?_⟩
  · rw [Nat.div_lt_iff_lt_mul (by norm_num : (0 : Nat) < 100)]
    have hpos : 0 < ps.length := List.length_pos.mpr hne
    omega
  · exact List.sorted_insertionSort _ _
  · exact List.perm_insertionSort _ _

/-- Witness for C8 on the ten-sample buffer: the count is reported and the
p95 index 9 is in range. -/
theorem profiler_p95_index_witness :
    (PerformanceProfiler.getProfileStats (some tenSamples)).map ProfileStats.count
      = some tenSamples.length ∧
    tenSamples.length * 95 / 100 < tenSamples.length :=
  ⟨(profiler_p95_index.1 tenSamples (by decide)).2.1,
   (profiler_p95_index.1 tenSamples (by decide)).2.2.1⟩

/-- C6 counterexample: a benchmark whose three timed calls all raise.  The
claim says mean, min and max all equal 0; the code computes the mean as
0 / 0, which is NaN (modelled none), not 0 - only min and max fall back to 0
through the logical-or. -/
theorem benchmark_all_errors_counterexample :
    (LoadTester.benchmark [none, none, none] 100).avgTime = none ∧
    (LoadTester.benchmark [none, none, none] 100).avgTime ≠ some 0 ∧
    (LoadTester.benchmark [none, none, none] 100).errors = 3 := by
  decide

/-- C6 as amended: when every timed call errors, the error count equals the
number of timed calls and min and max durations are 0, but the mean is the
NaN of 0 / 0 (modelled none), not 0; in general the error count is the number
of raising calls, and the mean is computed over the durations of the
non-raising calls only. -/
theorem benchmark_all_errors_amended (outcomes : List (Option Rat)) (totalTime : Rat) :
    ((∀ o ∈ outcomes, o = none) →
        (LoadTester.benchmark outcomes totalTime).avgTime = none ∧
        (LoadTester.benchmark outcomes totalTime).minTime = 0 ∧
        (LoadTester.benchmark outcomes totalTime).maxTime = 0 ∧
        (LoadTester.benchmark outcomes totalTime).errors = outcomes.length) ∧
    (LoadTester.benchmark outcomes totalTime).errors =
      (outcomes.filter fun o => o.isNone).length ∧
    (LoadTester.benchmark outcomes totalTime).avgTime =
      jsDiv (outcomes.filterMap id).sum (outcomes.filterMap id).length := by
  refine ⟨?_, rfl, rfl⟩
  intro h
  have hres : outcomes.filterMap id = [] := by
    rw [List.filterMap_eq_nil_iff]
    intro a ha
    simpa using h a ha
  have hfil : outcomes.filter (fun o => o.isNone) = outcomes :=
    List.filter_eq_self.mpr fun a ha => by rw [h a ha]; rfl
  simp [LoadTester.benchmark, hres, hfil, sortAsc, List.insertionSort, jsDiv]

/-- Witness for C6 as amended, at two all-error calls. -/
theorem benchmark_all_errors_amended_witness :
    (LoadTester.benchmark [none, none] 50).avgTime = none ∧
    (LoadTester.benchmark [none, none] 50).minTime = 0 ∧
    (LoadTester.benchmark [none, none] 50).maxTime = 0 ∧
    (LoadTester.benchmark [none, none] 50).errors =
      ([none, none] : List (Option Rat)).length :=
  (benchmark_all_errors_amended [none, none] 50).1 (by decide)

/-- C9: the leak check never warns below 5 snapshots; with at least 5 it
warns exactly when the trend over the last 5 heap-used values strictly
exceeds 50 MB; that trend is the ordinary-least-squares slope of the 5 values
against indices 0..4 (mean index 2, squared deviation sum 10) scaled by
n - 1 = 4; five snapshots each 15 MB above the previous trigger the warning
(drift 60 MB), while flat or declining sequences never do. -/
theorem leak_detector_threshold :
    (∀ s : List Rat, s.length < 5 → MemoryLeakDetector.checkForLeaks s = false) ∧
    (∀ s : List Rat, 5 ≤ s.length →
        (MemoryLeakDetector.checkForLeaks s = true ↔
          50 * 1024 * 1024 <
            MemoryLeakDetector.calculateTrend (s.drop (s.length - 5)))) ∧
    (∀ y0 y1 y2 y3 y4 : Rat,
        MemoryLeakDetector.calculateTrend [y0, y1, y2, y3, y4] =
          4 * ((-2 * (y0 - (y0 + y1 + y2 + y3 + y4) / 5)
                - (y1 - (y0 + y1 + y2 + y3 + y4) / 5)
                + (y3 - (y0 + y1 + y2 + y3 + y4) / 5)
                + 2 * (y4 - (y0 + y1 + y2 + y3 + y4) / 5)) / 10)) ∧
    (∀ a : Rat, MemoryLeakDetector.checkForLeaks
        [a, a + 15 * 1024 * 1024, a + 30 * 1024 * 1024, a + 45 * 1024 * 1024,
          a + 60 * 1024 * 1024] = true) ∧
    (∀ y0 y1 y2 y3 y4 : Rat, y1 ≤ y0 → y2 ≤ y1 → y3 ≤ y2 → y4 ≤ y3 →
        MemoryLeakDetector.checkForLeaks [y0, y1, y2, y3, y4] = false) := by
  refine ⟨?_, ?_, ?_, ?_, ?_⟩
  · intro s h
    simp [MemoryLeakDetector.checkForLeaks, h]
  · intro s h
    simp [MemoryLeakDetector.checkForLeaks, Nat.not_lt.mpr h]
  · intro y0 y1 y2 y3 y4
    rw [calculateTrend_five]
    ring
  · intro a
    have ht : MemoryLeakDetector.calculateTrend
        [a, a + 15 * 1024 * 1024, a + 30 * 1024 * 1024, a + 45 * 1024 * 1024,
          a + 60 * 1024 * 1024] = 60 * 1024 * 1024 := by
      rw [calculateTrend_five]
      ring
    unfold MemoryLeakDetector.checkForLeaks
    rw [show ([a, a + 15 * 1024 * 1024, a + 30 * 1024 * 1024, a + 45 * 1024 * 1024,
        a + 60 * 1024 * 1024] : List Rat).length = 5 from rfl]
    rw [if_neg (by norm_num), show (5 : Nat) - 5 = 0 from rfl, List.drop_zero, ht,
      decide_eq_true_eq]
    norm_num
  · intro y0 y1 y2 y3 y4 h1 h2 h3 h4
    have ht := calculateTrend_five y0 y1 y2 y3 y4
    unfold MemoryLeakDetector.checkForLeaks
    rw [show ([y0, y1, y2, y3, y4] : List Rat).length = 5 from rfl]
    rw [if_neg (by norm_num), show (5 : Nat) - 5 = 0 from rfl, List.drop_zero, ht]
    rw [decide_eq_false_iff_not]
    intro hlt
    linarith

/-- Witness for C9: one snapshot never warns; the 15 MB staircase from 0
warns; the declining sequence 5,4,3,2,1 does not. -/
theorem leak_detector_threshold_witness :
    MemoryLeakDetector.checkForLeaks [1024] = false ∧
    MemoryLeakDetector.checkForLeaks
      [0, 15 * 1024 * 1024, 30 * 1024 * 1024, 45 * 1024 * 1024, 60 * 1024 * 1024] = true ∧
    MemoryLeakDetector.checkForLeaks [5, 4, 3, 2, 1] = false := by
  obtain ⟨h1, -, -, h4, h5⟩ := leak_detector_threshold
  refine ⟨h1 [1024] (by simp), ?_,
    h5 5 4 3 2 1 (by norm_num) (by norm_num) (by norm_num) (by norm_num)⟩
  simpa using h4 0

end CloudOpt
